import Mathlib

/-!
Shallow embedding of `src/update.py` (charge-monitor): a script that fetches
per-device port telemetry, normalizes it into 12-port snapshots, appends
history rows to a CSV log, and compacts the log to a retention window.

Timestamps: the source uses `datetime` objects compared after parsing with
`strptime('%Y-%m-%d %H:%M:%S')` and formats them with `strftime`.  We model a
datetime as its count of seconds since 0001-01-01 00:00:00 (proleptic
Gregorian, matching Python's `datetime` range which starts at year 1), as an
`Int` so that cutoff arithmetic (`now - timedelta(days=3)`) never truncates.
-/

/-- Fold a list of decimal digit characters into the `Nat` they denote. -/
def digitsToNat (l : List Char) : Nat :=
  l.foldl (fun a c => a * 10 + (c.toNat - 48)) 0

/-- Split a character list at every occurrence of `c` (model of the string
splitting the `csv`/`strptime` machinery performs on separators). -/
def splitOnCharAux (c : Char) : List Char → List Char → List (List Char)
  | [], acc => [acc.reverse]
  | x :: xs, acc =>
    if x = c then acc.reverse :: splitOnCharAux c xs []
    else splitOnCharAux c xs (x :: acc)

def splitOnChar (c : Char) (l : List Char) : List (List Char) :=
  splitOnCharAux c l []

/-- `%Y` in CPython's `strptime` matches exactly four digits, and `datetime`
requires year ≥ 1. -/
def parseYear (cs : List Char) : Option Nat :=
  if cs.length = 4 ∧ cs.all Char.isDigit = true ∧ 1 ≤ digitsToNat cs then
    some (digitsToNat cs)
  else none

/-- One- or two-digit numeric field with an inclusive range check, as the
`strptime` regexes for `%m`/`%d`/`%H`/`%M`/`%S` enforce. -/
def parseRange (lo hi : Nat) (cs : List Char) : Option Nat :=
  if (cs.length = 1 ∨ cs.length = 2) ∧ cs.all Char.isDigit = true
      ∧ lo ≤ digitsToNat cs ∧ digitsToNat cs ≤ hi then
    some (digitsToNat cs)
  else none

def isLeap (y : Nat) : Bool :=
  y % 4 == 0 && (y % 100 != 0 || y % 400 == 0)

def daysInMonth (y m : Nat) : Nat :=
  if m = 2 then (if isLeap y then 29 else 28)
  else if m = 4 ∨ m = 6 ∨ m = 9 ∨ m = 11 then 30
  else 31

/-- Days in years 1, …, y−1 (so `daysBeforeYear 1 = 0`). -/
def daysBeforeYear (y : Nat) : Nat :=
  365 * (y - 1) + (y - 1) / 4 - (y - 1) / 100 + (y - 1) / 400

/-- Days in months 1, …, m−1 of year `y`. -/
def daysBeforeMonth (y m : Nat) : Nat :=
  (List.range (m - 1)).foldl (fun a i => a + daysInMonth y (i + 1)) 0

/-- Seconds since 0001-01-01 00:00:00 of the civil datetime (y,m,d,h,mi,s). -/
def toSecs (y m d h mi s : Nat) : Nat :=
  (daysBeforeYear y + daysBeforeMonth y m + (d - 1)) * 86400
    + h * 3600 + mi * 60 + s

/-- Model of `datetime.strptime(s, '%Y-%m-%d %H:%M:%S')`: `none` is the
`ValueError` outcome, `some t` the parsed datetime as seconds since year 1. -/
def parseTs (s : String) : Option Int :=
  match splitOnChar ' ' s.toList with
  | [ds, ts] =>
    match splitOnChar '-' ds, splitOnChar ':' ts with
    | [ys, ms, dcs], [hs, mins, ses] => do
      let y ← parseYear ys
      let mo ← parseRange 1 12 ms
      let d ← parseRange 1 31 dcs
      let h ← parseRange 0 23 hs
      let mi ← parseRange 0 59 mins
      let sec ← parseRange 0 59 ses
      if d ≤ daysInMonth y mo then some ((toSecs y mo d h mi sec : Nat) : Int)
      else none
    | _, _ => none
  | _ => none

/-- Civil date (y, m, d) of a day count since 0001-01-01 (day 0).
Division-based conversion (no unbounded search). -/
def civilFromDay (day : Nat) : Nat × Nat × Nat :=
  let z := day + 306
  let era := z / 146097
  let doe := z % 146097
  let yoe := (doe - doe / 1460 + doe / 36524 - doe / 146096) / 365
  let y := yoe + era * 400
  let doy := doe - (365 * yoe + yoe / 4 - yoe / 100)
  let mp := (5 * doy + 2) / 153
  let d := doy - (153 * mp + 2) / 5 + 1
  let m := if mp < 10 then mp + 3 else mp - 9
  (if m ≤ 2 then y + 1 else y, m, d)

def pad (w n : Nat) : String :=
  let s := toString n
  String.mk (List.replicate (w - s.length) '0') ++ s

/-- Model of `strftime('%Y-%m-%d %H:%M:%S')` on a datetime given as seconds
since year 1. -/
def fmtTs (z : Int) : String :=
  let n := z.toNat
  let day := n / 86400
  let sod := n % 86400
  let c := civilFromDay day
  pad 4 c.1 ++ "-" ++ pad 2 c.2.1 ++ "-" ++ pad 2 c.2.2 ++ " "
    ++ pad 2 (sod / 3600) ++ ":" ++ pad 2 (sod % 3600 / 60) ++ ":"
    ++ pad 2 (sod % 60)

/-! ## History log model

A CSV file is a list of rows, a row a list of field strings (what
`csv.reader` yields / `csv.writer` consumes; a blank line is the empty row).
An absent file is `none` at the `Option` level. -/

/-- `DAYS_TO_KEEP = 3` (src/update.py line 9). -/
def DAYS_TO_KEEP : Nat := 3

/-- `DEVICE_LIST = [423297, 417598, 418297, 418351]` (src/update.py line 6). -/
def DEVICE_LIST : List Nat := [423297, 417598, 418297, 418351]

/-- The CSV header row written when the history file is newly created
(src/update.py line 154). -/
def historyHeader : List String :=
  ["timestamp", "device_id", "port", "current", "voltage", "power",
   "charge_status"]

/-- `cutoff_time = now - datetime.timedelta(days=DAYS_TO_KEEP)`
(src/update.py line 31). -/
def cutoffOf (now : Int) : Int := now - 86400 * (DAYS_TO_KEEP : Int)

/-- The per-row test of `clean_history_csv`'s loop (src/update.py lines
44–53): parse `row[0]` with the fixed format and keep the row when the
parsed time is strictly greater than the cutoff; a `ValueError` (parse
failure) skips the row.  (The empty-row `IndexError` case is handled one
level up, in `clean`, because it aborts the whole rewrite.) -/
def keepRow (cutoff : Int) (row : List String) : Bool :=
  match row with
  | [] => false
  | s :: _ =>
    match parseTs s with
    | some t => cutoff < t
    | none => false

/-- `clean_history_csv` on the contents of an existing file (src/update.py
lines 30–65).  An empty file returns untouched (`StopIteration` on the
header).  A zero-column data row raises `IndexError` at `row[0]`, which the
inner `except ValueError` does not catch; the outer `except Exception`
swallows it before the write-back, so the file is left unchanged.
Otherwise the file is rewritten as the header (written only when truthy,
i.e. non-empty) followed by the rows that pass `keepRow`. -/
def clean (now : Int) (file : List (List String)) : List (List String) :=
  match file with
  | [] => []
  | header :: rows =>
    if rows.any List.isEmpty then header :: rows
    else (if header.isEmpty then [] else [header])
      ++ rows.filter (keepRow (cutoffOf now))

/-- `clean_history_csv` including the `os.path.exists` guard (src/update.py
lines 27–28): an absent file is a no-op. -/
def cleanFile (now : Int) (file : Option (List (List String))) :
    Option (List (List String)) :=
  match file with
  | none => none
  | some f => some (clean now f)

/-- The history-append step of `main` (src/update.py lines 149–156): the
header row is written only when the file did not previously exist (the file
is opened in append mode), then all the run's records follow. -/
def appendHistory (file : Option (List (List String)))
    (records : List (List String)) : List (List String) :=
  match file with
  | none => historyHeader :: records
  | some f => f ++ records

/-! ## API response and snapshot model

The response body shape (§6 of the behaviour: `{code, msg?, data: {list:
[{charge_status, online, current, voltage, power}, ...]}}`).  Absent
per-item fields are `none`, matching the `item.get(k, 0)` defaulting; the
fetch result is `Option ApiResponse`, with `none` the no-data indicator
returned by `fetch_device_data` on any request failure. -/

structure PortItem where
  charge_status : Option Int
  online : Option Int
  current : Option Int
  voltage : Option Int
  power : Option Int
deriving DecidableEq, Repr

structure ApiResponse where
  /-- `raw_data.get('code')`: `none` when the field is absent. -/
  code : Option Int
  /-- `raw_data.get('msg', 'Unknown')` reads this with default. -/
  msg : Option String
  /-- `raw_data.get('data', {}).get('list', [])`. -/
  list : List PortItem
deriving DecidableEq, Repr

structure PortInfo where
  port_number : Nat
  current : Int
  voltage : Int
  power : Int
  status : Int
  online : Int
deriving DecidableEq, Repr

structure DeviceInfo where
  id : Nat
  name : String
  updated_at : String
  ports : List PortInfo
  error : Option String
deriving DecidableEq, Repr

/-- `f"桩{i+1}"` (src/update.py line 83; the source file stores the glyph
double-encoded, which does not affect any claim). -/
def stationName (i : Nat) : String := "桩" ++ toString (i + 1)

/-- The frontend port record built from a present list entry
(src/update.py lines 105–112). -/
def mkPortInfo (p : Nat) (item : PortItem) : PortInfo :=
  { port_number := p + 1
    current := item.current.getD 0
    voltage := item.voltage.getD 0
    power := item.power.getD 0
    status := item.charge_status.getD 0
    online := item.online.getD 0 }

/-- The synthesized zeroed/offline entry for slots beyond the response list
(src/update.py lines 129–132). -/
def placeholderPort (p : Nat) : PortInfo :=
  { port_number := p + 1, current := 0, voltage := 0, power := 0,
    status := 0, online := 0 }

/-- The history row appended for a present list entry (src/update.py lines
119–127); the CSV writer stringifies every field. -/
def mkHistoryRow (deviceId : Nat) (csvTs : String) (p : Nat)
    (item : PortItem) : List String :=
  [csvTs, toString deviceId, toString (p + 1),
   toString (item.current.getD 0), toString (item.voltage.getD 0),
   toString (item.power.getD 0), toString (item.charge_status.getD 0)]

/-- The `for p_idx in range(12)` normalization loop's frontend output
(src/update.py lines 97–132): a present entry is copied, a missing one
synthesized. -/
def normalizePorts (list : List PortItem) : List PortInfo :=
  (List.range 12).map fun p =>
    match list.get? p with
    | some item => mkPortInfo p item
    | none => placeholderPort p

/-- The same loop's history-record output (src/update.py lines 119–127):
one row per present entry, nothing for synthesized slots. -/
def deviceHistoryRows (deviceId : Nat) (csvTs : String)
    (list : List PortItem) : List (List String) :=
  (List.range 12).filterMap fun p =>
    (list.get? p).map (mkHistoryRow deviceId csvTs p)

/-- One iteration of `main`'s device loop (src/update.py lines 78–136):
from the fetch result build the snapshot `device_info` and this device's
history records.  With a body present, the error field is set exactly when
`raw_data.get('code') != 0`; with no body, only the error is set and the
port list stays empty. -/
def processDevice (i deviceId : Nat) (timestamp csvTs : String)
    (raw : Option ApiResponse) : DeviceInfo × List (List String) :=
  match raw with
  | some rd =>
    ({ id := deviceId, name := stationName i, updated_at := timestamp,
       ports := normalizePorts rd.list,
       error := if rd.code = some 0 then none
                else some ("API Error: " ++ rd.msg.getD "Unknown") },
     deviceHistoryRows deviceId csvTs rd.list)
  | none =>
    ({ id := deviceId, name := stationName i, updated_at := timestamp,
       ports := [], error := some "Fetch failed" }, [])

/-- The run's `frontend_data` (src/update.py lines 75–136), as a function of
the start-of-run clock reading `now` (seconds since year 1) and the list of
per-device fetch results, paired positionally with `DEVICE_LIST`. -/
def runFrontend (now : Int) (responses : List (Option ApiResponse)) :
    List DeviceInfo :=
  ((DEVICE_LIST.zip responses).enum).map fun x =>
    (processDevice x.1 x.2.1 (fmtTs now) (fmtTs (now + 8 * 3600)) x.2.2).1

/-- The run's `history_records` (src/update.py lines 76, 119–127):
`csv_timestamp` is computed once, before the loop, as `now + 8 hours`
formatted (src/update.py line 71). -/
def runRecords (now : Int) (responses : List (Option ApiResponse)) :
    List (List String) :=
  ((DEVICE_LIST.zip responses).enum).flatMap fun x =>
    (processDevice x.1 x.2.1 (fmtTs now) (fmtTs (now + 8 * 3600)) x.2.2).2

/-- The history file produced by one complete run: append (lines 149–156)
then compaction (line 161).  `nowClean` is `clean_history_csv`'s own clock
reading, taken after the fetch loop. -/
def runHistoryFile (now nowClean : Int)
    (file : Option (List (List String)))
    (responses : List (Option ApiResponse)) : List (List String) :=
  clean nowClean (appendHistory file (runRecords now responses))

/-- Well-formedness of the on-disk history file: absent, or the standard
header followed by rows none of which is a blank line.  This holds of the
initial state (no file) and, as proved below, is preserved by every run, so
it characterizes every program-reachable history file. -/
def WFHistory (file : Option (List (List String))) : Prop :=
  file = none ∨ ∃ rows, file = some (historyHeader :: rows) ∧ ∀ r ∈ rows, r ≠ []

/-! ## Helper lemmas -/

theorem keepRow_iff (c : Int) (r : List String) :
    keepRow c r = true ↔ ∃ s rest t, r = s :: rest ∧ parseTs s = some t ∧ c < t := by
  cases r with
  | nil => simp [keepRow]
  | cons s rest =>
    cases hp : parseTs s with
    | none => simp [keepRow, hp]
    | some t => simp [keepRow, hp]

theorem keepRow_ne_nil {c : Int} {r : List String} (h : keepRow c r = true) :
    r ≠ [] := by
  cases r with
  | nil => simp [keepRow] at h
  | cons s rest => simp

theorem any_isEmpty_false {rows : List (List String)}
    (h : ∀ r ∈ rows, r ≠ []) : rows.any List.isEmpty = false := by
  rw [Bool.eq_false_iff]
  intro hc
  obtain ⟨r, hr, he⟩ := List.any_eq_true.mp hc
  exact h r hr (List.isEmpty_iff.mp he)

theorem clean_cons {now : Int} {header : List String} {rows : List (List String)}
    (hh : header ≠ []) (hrows : ∀ r ∈ rows, r ≠ []) :
    clean now (header :: rows) = header :: rows.filter (keepRow (cutoffOf now)) := by
  have h1 : rows.any List.isEmpty = false := any_isEmpty_false hrows
  have h2 : header.isEmpty = false := by
    rw [Bool.eq_false_iff]; intro hc; exact hh (List.isEmpty_iff.mp hc)
  simp [clean, h1, h2]

theorem filter_keep_all {c : Int} (rows : List (List String)) :
    ∀ r ∈ rows.filter (keepRow c), keepRow c r = true :=
  fun _ hr => (List.mem_filter.mp hr).2

theorem filter_keep_ne_nil {c : Int} (rows : List (List String)) :
    ∀ r ∈ rows.filter (keepRow c), r ≠ [] :=
  fun r hr => keepRow_ne_nil (filter_keep_all rows r hr)

theorem filter_keep_idem (c : Int) (rows : List (List String)) :
    (rows.filter (keepRow c)).filter (keepRow c) = rows.filter (keepRow c) :=
  List.filter_eq_self.mpr (filter_keep_all rows)

/-- The interleaved `range(12)` loop, restated: collecting `f p (list[p])`
over the indices `p` of `range' s n` at which `list` has an entry is mapping
`f` over the enumerated window of `list`. -/
theorem filterMap_range'_get {α β : Type} (l : List α) (f : Nat → α → β) :
    ∀ (n s : Nat), (List.range' s n).filterMap (fun p => (l.get? p).map (f p))
      = (((l.drop s).take n).enumFrom s).map (fun x => f x.1 x.2) := by
  intro n
  induction n with
  | zero => intro s; rfl
  | succ n ih =>
    intro s
    rcases hd : l.drop s with _ | ⟨a, tail⟩
    · have hlen : l.length ≤ s := by
        have h0 := congrArg List.length hd
        rw [List.length_drop] at h0
        simp at h0
        omega
      have hs : l.get? s = none := List.get?_eq_none.mpr hlen
      have hs1 : l.drop (s + 1) = [] := List.drop_eq_nil_of_le (by omega)
      have hrec := ih (s + 1)
      rw [hs1] at hrec
      simp only [List.range'_succ, List.filterMap_cons, hs, Option.map_none',
        hd, List.take_nil] at hrec ⊢
      simpa using hrec
    · have hs : l.get? s = some a := by
        rw [List.get?_eq_getElem?]
        have := List.getElem?_drop l s 0
        simp [hd] at this
        simpa using this.symm
      have hs1 : l.drop (s + 1) = tail := by
        have := List.drop_drop 1 s l
        simp [hd] at this
        exact this.symm
      have htail := ih (s + 1)
      rw [hs1] at htail
      simp only [List.range'_succ, List.filterMap_cons, hs, Option.map_some',
        List.take_succ_cons, List.enumFrom_cons, List.map_cons]
      rw [htail]

/-- The history rows of one device are exactly one row per entry of the
first twelve entries of the response list, in list (= port) order. -/
theorem deviceHistoryRows_eq (d : Nat) (cts : String) (list : List PortItem) :
    deviceHistoryRows d cts list
      = ((list.take 12).enumFrom 0).map (fun y => mkHistoryRow d cts y.1 y.2) := by
  rw [deviceHistoryRows, List.range_eq_range', filterMap_range'_get list _ 12 0,
    List.drop_zero]

theorem mem_deviceHistoryRows {d : Nat} {cts : String} {list : List PortItem}
    {r : List String} (h : r ∈ deviceHistoryRows d cts list) :
    ∃ p item, list.get? p = some item ∧ r = mkHistoryRow d cts p item := by
  rw [deviceHistoryRows] at h
  obtain ⟨p, _, hr⟩ := List.mem_filterMap.mp h
  cases hg : list.get? p with
  | none => rw [hg] at hr; simp at hr
  | some item =>
    rw [hg] at hr
    simp at hr
    exact ⟨p, item, hg, hr.symm⟩

theorem mem_runRecords {now : Int} {responses : List (Option ApiResponse)}
    {r : List String} (h : r ∈ runRecords now responses) :
    ∃ d p item, r = mkHistoryRow d (fmtTs (now + 8 * 3600)) p item := by
  rw [runRecords] at h
  obtain ⟨x, _, hr⟩ := List.mem_flatMap.mp h
  cases hresp : x.2.2 with
  | none => rw [hresp] at hr; simp [processDevice] at hr
  | some rd =>
    rw [hresp] at hr
    simp only [processDevice] at hr
    obtain ⟨p, item, _, hrow⟩ := mem_deviceHistoryRows hr
    exact ⟨x.2.1, p, item, hrow⟩

theorem runRecords_head {now : Int} {responses : List (Option ApiResponse)}
    {r : List String} (h : r ∈ runRecords now responses) :
    r.head? = some (fmtTs (now + 8 * 3600)) := by
  obtain ⟨d, p, item, hrow⟩ := mem_runRecords h
  rw [hrow]; rfl

theorem runRecords_ne_nil {now : Int} {responses : List (Option ApiResponse)} :
    ∀ r ∈ runRecords now responses, r ≠ [] := by
  intro r hr
  obtain ⟨d, p, item, hrow⟩ := mem_runRecords hr
  rw [hrow]; simp [mkHistoryRow]

/-! ## Claims -/

/-- C1 (amended).  For every device whose fetch returned a body, the
snapshot's port sequence has length exactly 12 regardless of the response
list's shape, entries beyond index 12 are ignored, and slots with no
corresponding list entry are the synthesized zeroed/offline placeholders;
for a device whose fetch returned no body, the snapshot's port sequence is
empty (no placeholders are synthesized) and the error field is
"Fetch failed". -/
theorem claim_C1 (i d : Nat) (ts cts : String) (rd : ApiResponse) :
    (processDevice i d ts cts (some rd)).1.ports.length = 12
    ∧ (∀ p : Nat, p < 12 → rd.list.length ≤ p →
        (processDevice i d ts cts (some rd)).1.ports.get? p
          = some (placeholderPort p))
    ∧ normalizePorts rd.list = normalizePorts (rd.list.take 12)
    ∧ (processDevice i d ts cts none).1.ports = []
    ∧ (processDevice i d ts cts none).1.error = some "Fetch failed" := by
  refine ⟨?_, ?_, ?_, rfl, rfl⟩
  · simp [processDevice, normalizePorts]
  · intro p hp hlen
    have hg : rd.list.get? p = none := List.get?_eq_none.mpr hlen
    simp only [processDevice, normalizePorts, List.get?_eq_getElem?,
      List.getElem?_map]
    rw [List.getElem?_range hp]
    simp [← List.get?_eq_getElem?, hg]
  · unfold normalizePorts
    apply List.map_congr_left
    intro p hp
    have hp12 : p < 12 := by simpa using List.mem_range.mp hp
    rw [List.get?_eq_getElem?, List.get?_eq_getElem?, List.getElem?_take]
    simp [hp12]

/-- C1 counterexample: the claim asserts that an absent body (fetch
failure) also yields exactly 12 port entries; in the code the `else`
branch only sets the error field, leaving the port list empty. -/
theorem claim_C1_cex :
    ¬ ((processDevice 0 423297 "2026-10-12 00:00:00" "2026-10-12 08:00:00"
        none).1.ports.length = 12) := by
  decide

theorem claim_C1_witness :
    (processDevice 0 423297 "a" "b"
        (some ⟨some 0, none, [⟨none, none, none, none, none⟩]⟩)).1.ports.get? 3
      = some (placeholderPort 3) :=
  (claim_C1 0 423297 "a" "b" ⟨some 0, none, [⟨none, none, none, none, none⟩]⟩).2.1
    3 (by decide) (by decide)

/-- C2.  With a well-formed log (non-blank header, no blank data rows), a
data row whose first field parses to time `t` appears in the compacted
file's data rows iff it was present and `t` is strictly greater than the
cutoff `now - 3 days`; in particular a row exactly at the cutoff is
excluded and a row one second newer is retained. -/
theorem claim_C2 (now : Int) (header : List String) (rows : List (List String))
    (hh : header ≠ []) (hrows : ∀ r ∈ rows, r ≠ [])
    (s : String) (rest : List String) (t : Int) (hp : parseTs s = some t) :
    (s :: rest) ∈ (clean now (header :: rows)).tail
      ↔ ((s :: rest) ∈ rows ∧ cutoffOf now < t) := by
  rw [clean_cons hh hrows]
  simp only [List.tail_cons, List.mem_filter, keepRow, hp]
  simp

theorem claim_C2_witness :
    (["2026-01-07 00:00:01"]
        ∈ (clean ((toSecs 2026 1 10 0 0 0 : Nat) : Int)
            (historyHeader :: [["2026-01-07 00:00:00"], ["2026-01-07 00:00:01"]])).tail)
    ∧ ¬ (["2026-01-07 00:00:00"]
        ∈ (clean ((toSecs 2026 1 10 0 0 0 : Nat) : Int)
            (historyHeader :: [["2026-01-07 00:00:00"], ["2026-01-07 00:00:01"]])).tail) := by
  constructor
  · exact (claim_C2 ((toSecs 2026 1 10 0 0 0 : Nat) : Int) historyHeader
      [["2026-01-07 00:00:00"], ["2026-01-07 00:00:01"]] (by decide) (by decide)
      "2026-01-07 00:00:01" [] ((toSecs 2026 1 7 0 0 1 : Nat) : Int)
      (by decide)).mpr ⟨by decide, by decide⟩
  · intro h
    have := (claim_C2 ((toSecs 2026 1 10 0 0 0 : Nat) : Int) historyHeader
      [["2026-01-07 00:00:00"], ["2026-01-07 00:00:01"]] (by decide) (by decide)
      "2026-01-07 00:00:00" [] ((toSecs 2026 1 7 0 0 0 : Nat) : Int)
      (by decide)).mp h
    revert this
    decide

/-- C3.  Compaction is idempotent: with the same clock reading and no
intervening writes, a second run of the Retention Compactor leaves the
file exactly as the first run left it (including the absent-file,
empty-file, and aborted-rewrite cases). -/
theorem claim_C3 (now : Int) (file : Option (List (List String))) :
    cleanFile now (cleanFile now file) = cleanFile now file := by
  cases file with
  | none => rfl
  | some f =>
    show some (clean now (clean now f)) = some (clean now f)
    congr 1
    cases f with
    | nil => rfl
    | cons header rows =>
      by_cases hab : rows.any List.isEmpty
      · simp [clean, hab]
      · by_cases hh : header.isEmpty
        · have h1 : clean now (header :: rows)
              = rows.filter (keepRow (cutoffOf now)) := by
            simp [clean, hab, hh]
          rw [h1]
          rcases hF : rows.filter (keepRow (cutoffOf now)) with _ | ⟨r0, rest⟩
          · rfl
          · have hall : ∀ r ∈ rows.filter (keepRow (cutoffOf now)),
                keepRow (cutoffOf now) r = true := filter_keep_all rows
            rw [hF] at hall
            have hr0 : r0.isEmpty = false := by
              rw [Bool.eq_false_iff]
              intro hc
              exact keepRow_ne_nil (hall r0 (by simp)) (List.isEmpty_iff.mp hc)
            have hrest : rest.any List.isEmpty = false := by
              apply any_isEmpty_false
              intro r hr
              exact keepRow_ne_nil (hall r (by simp [hr]))
            have hfrest : rest.filter (keepRow (cutoffOf now)) = rest :=
              List.filter_eq_self.mpr (fun r hr => hall r (by simp [hr]))
            simp [clean, hrest, hr0, hfrest]
        · have h1 : clean now (header :: rows)
              = header :: rows.filter (keepRow (cutoffOf now)) := by
            simp [clean, hab, hh]
          rw [h1]
          have hF : (rows.filter (keepRow (cutoffOf now))).any List.isEmpty
              = false :=
            any_isEmpty_false (filter_keep_ne_nil rows)
          simp [clean, hF, hh, filter_keep_idem]

/-- C4 (amended).  A data row whose first column fails to parse as a
timestamp is dropped by compaction rather than causing a failure (stated
for logs whose rows are non-blank, since a zero-column row aborts the
rewrite, and for rows distinct from the header, which is never filtered);
a row with fewer columns than expected is dropped only by virtue of an
unparsable first column.  Concretely, a log with one well-formed recent
row, one fewer-column row with unparsable first field, and one expired
row compacts to exactly the header plus the well-formed recent row. -/
theorem claim_C4 :
    (∀ (now : Int) (header : List String) (rows : List (List String))
        (s : String) (rest : List String),
      (∀ r ∈ rows, r ≠ []) → parseTs s = none → header ≠ s :: rest →
      (s :: rest) ∉ clean now (header :: rows))
    ∧ clean ((toSecs 2026 1 10 0 0 0 : Nat) : Int)
        [historyHeader,
         ["2026-01-09 12:00:00", "423297", "1", "0", "0", "0", "0"],
         ["nonsense", "423297"],
         ["2026-01-01 00:00:00", "423297", "1", "0", "0", "0", "0"]]
      = [historyHeader,
         ["2026-01-09 12:00:00", "423297", "1", "0", "0", "0", "0"]] := by
  constructor
  · intro now header rows s rest hrows hp hneq hmem
    have hab : rows.any List.isEmpty = false := any_isEmpty_false hrows
    have hkeep : keepRow (cutoffOf now) (s :: rest) = false := by
      simp [keepRow, hp]
    by_cases hh : header.isEmpty
    · rw [show clean now (header :: rows)
          = rows.filter (keepRow (cutoffOf now)) by simp [clean, hab, hh]] at hmem
      exact absurd ((List.mem_filter.mp hmem).2) (by simp [hkeep])
    · rw [show clean now (header :: rows)
          = header :: rows.filter (keepRow (cutoffOf now)) by
            simp [clean, hab, hh]] at hmem
      rcases List.mem_cons.mp hmem with h1 | h2
      · exact hneq h1.symm
      · exact absurd ((List.mem_filter.mp h2).2) (by simp [hkeep])
  · decide

theorem claim_C4_witness :
    (["xx", "yy"] : List String) ∉ clean 0 (historyHeader :: [["xx", "yy"]]) :=
  claim_C4.1 0 historyHeader [["xx", "yy"]] "xx" ["yy"] (by decide) (by decide)
    (by decide)

/-- C4 counterexample: a row with fewer columns than expected (one column
instead of seven) whose single field is a valid in-window timestamp is
retained, not skipped, so compaction does not produce just the header plus
the well-formed recent row. -/
theorem claim_C4_cex :
    (["2026-01-09 13:00:00"] : List String).length < 7
    ∧ ["2026-01-09 13:00:00"]
        ∈ clean ((toSecs 2026 1 10 0 0 0 : Nat) : Int)
          [historyHeader,
           ["2026-01-09 12:00:00", "423297", "1", "0", "0", "0", "0"],
           ["2026-01-09 13:00:00"],
           ["2026-01-01 00:00:00", "423297", "1", "0", "0", "0", "0"]] := by
  decide

/-- C5.  Run invariant: for every well-formed pre-run log (absent, or
header plus non-blank rows — the shape every program-produced file has,
starting from no file), the log after append-then-compaction starts with
the header row, every data row's timestamp parses and is strictly newer
than `nowClean - DAYS_TO_KEEP` days, the rows appended by the run carry
the collection time shifted +8 hours, and the resulting file is again
well-formed (so the invariant holds after each run). -/
theorem claim_C5 (now nowClean : Int) (file : Option (List (List String)))
    (responses : List (Option ApiResponse)) (hwf : WFHistory file) :
    (runHistoryFile now nowClean file responses).head? = some historyHeader
    ∧ (∀ r ∈ (runHistoryFile now nowClean file responses).tail,
        ∃ s rest t, r = s :: rest ∧ parseTs s = some t ∧ cutoffOf nowClean < t)
    ∧ (∀ r ∈ runRecords now responses,
        r.head? = some (fmtTs (now + 8 * 3600)))
    ∧ WFHistory (some (runHistoryFile now nowClean file responses)) := by
  obtain ⟨rows', happ, hne⟩ : ∃ rows',
      appendHistory file (runRecords now responses) = historyHeader :: rows'
      ∧ ∀ r ∈ rows', r ≠ [] := by
    rcases hwf with h | ⟨rows, hfile, hrows⟩
    · exact ⟨runRecords now responses, by rw [h]; rfl, runRecords_ne_nil⟩
    · refine ⟨rows ++ runRecords now responses, by rw [hfile]; rfl, ?_⟩
      intro r hr
      rcases List.mem_append.mp hr with h1 | h2
      · exact hrows r h1
      · exact runRecords_ne_nil r h2
  have hout : runHistoryFile now nowClean file responses
      = historyHeader :: rows'.filter (keepRow (cutoffOf nowClean)) := by
    rw [runHistoryFile, happ]
    exact clean_cons (by decide) hne
  refine ⟨by rw [hout]; rfl, ?_, fun r hr => runRecords_head hr, ?_⟩
  · intro r hr
    rw [hout] at hr
    simp only [List.tail_cons] at hr
    exact (keepRow_iff _ r).mp (filter_keep_all rows' r hr)
  · exact Or.inr ⟨_, by rw [hout], filter_keep_ne_nil rows'⟩

theorem claim_C5_witness :
    (runHistoryFile 0 0
        (some [historyHeader, ["2026-01-09 12:00:00", "1"]]) [none]).head?
      = some historyHeader :=
  (claim_C5 0 0 (some [historyHeader, ["2026-01-09 12:00:00", "1"]]) [none]
    (Or.inr ⟨[["2026-01-09 12:00:00", "1"]], rfl, by decide⟩)).1

/-- C6.  The run's history records are, in device order, one row per entry
of each responding device's `data.list` truncated to twelve entries, in
port order, each built with the shifted timestamp; a device with no body
contributes no rows; and the appender writes the header row exactly when
the log is newly created, with the run's rows following the prior
contents. -/
theorem claim_C6 (now : Int) (responses : List (Option ApiResponse)) :
    (runRecords now responses
      = ((DEVICE_LIST.zip responses).enum).flatMap (fun x =>
          match x.2.2 with
          | some rd => ((rd.list.take 12).enumFrom 0).map
              (fun y => mkHistoryRow x.2.1 (fmtTs (now + 8 * 3600)) y.1 y.2)
          | none => []))
    ∧ (∀ (d : Nat) (cts : String) (list : List PortItem),
        (deviceHistoryRows d cts list).length = min 12 list.length)
    ∧ (∀ recs, appendHistory none recs = historyHeader :: recs)
    ∧ (∀ f recs, appendHistory (some f) recs = f ++ recs) := by
  refine ⟨?_, ?_, fun _ => rfl, fun _ _ => rfl⟩
  · rw [runRecords]
    congr 1
    funext x
    cases hx : x.2.2 with
    | none => simp [processDevice]
    | some rd => simp [processDevice, deviceHistoryRows_eq]
  · intro d cts list
    rw [deviceHistoryRows_eq]
    simp

/-- C7.  A device whose fetch returns the no-data indicator gets a
snapshot whose error field is exactly "Fetch failed" and contributes no
history rows, and the run still produces one snapshot per configured
device for which a fetch result exists. -/
theorem claim_C7 (i d : Nat) (ts cts : String) (now : Int)
    (responses : List (Option ApiResponse)) :
    (processDevice i d ts cts none).1.error = some "Fetch failed"
    ∧ (processDevice i d ts cts none).2 = []
    ∧ (runFrontend now responses).length
        = min DEVICE_LIST.length responses.length := by
  refine ⟨rfl, rfl, ?_⟩
  simp [runFrontend]

/-- C8.  A body whose status code field holds a non-zero value (with a
non-empty `data.list`) yields a snapshot that both carries the error
message derived from the `msg` field (falling back to "Unknown" when
absent) and has its ports populated from the list, absent per-port fields
defaulting to zero (as `mkPortInfo`'s `getD 0` records). -/
theorem claim_C8 (i d : Nat) (ts cts : String) (rd : ApiResponse) (c : Int)
    (hc : rd.code = some c) (hc0 : c ≠ 0) (hl : rd.list ≠ []) :
    (processDevice i d ts cts (some rd)).1.error
      = some ("API Error: " ++ rd.msg.getD "Unknown")
    ∧ ∀ (p : Nat) (item : PortItem), p < 12 → rd.list.get? p = some item →
        (processDevice i d ts cts (some rd)).1.ports.get? p
          = some (mkPortInfo p item) := by
  constructor
  · have hne : rd.code ≠ some 0 := by rw [hc]; simp [hc0]
    simp [processDevice, hne]
  · intro p item hp hg
    simp only [processDevice, normalizePorts, List.get?_eq_getElem?,
      List.getElem?_map]
    rw [List.getElem?_range hp]
    simp [← List.get?_eq_getElem?, hg]

theorem claim_C8_witness :
    (processDevice 0 423297 "a" "b"
        (some ⟨some 1, none, [⟨some 1, some 1, some 2, none, none⟩]⟩)).1.error
      = some ("API Error: " ++ "Unknown")
    ∧ (processDevice 0 423297 "a" "b"
        (some ⟨some 1, none, [⟨some 1, some 1, some 2, none, none⟩]⟩)).1.ports.get? 0
      = some (mkPortInfo 0 ⟨some 1, some 1, some 2, none, none⟩) :=
  ⟨(claim_C8 0 423297 "a" "b" ⟨some 1, none, [⟨some 1, some 1, some 2, none, none⟩]⟩
      1 rfl (by decide) (by decide)).1,
   (claim_C8 0 423297 "a" "b" ⟨some 1, none, [⟨some 1, some 1, some 2, none, none⟩]⟩
      1 rfl (by decide) (by decide)).2 0 ⟨some 1, some 1, some 2, none, none⟩
      (by decide) rfl⟩

/-- C9.  Compaction only deletes: whenever it completes, the output file
is a sublist (order-preserving subsequence, nothing reordered, modified or
invented) of the input file, and when the input starts with a non-blank
header row that row is written back unchanged as the first row. -/
theorem claim_C9 (now : Int) (file : List (List String)) :
    (clean now file).Sublist file
    ∧ ∀ (header : List String) (rows : List (List String)),
        file = header :: rows → header ≠ [] →
        (clean now file).head? = some header := by
  constructor
  · cases file with
    | nil => exact List.Sublist.refl _
    | cons header rows =>
      by_cases hab : rows.any List.isEmpty
      · rw [show clean now (header :: rows) = header :: rows by
          simp [clean, hab]]
      · by_cases hh : header.isEmpty
        · rw [show clean now (header :: rows)
              = rows.filter (keepRow (cutoffOf now)) by simp [clean, hab, hh]]
          exact (List.filter_sublist rows).cons header
        · rw [show clean now (header :: rows)
              = header :: rows.filter (keepRow (cutoffOf now)) by
                simp [clean, hab, hh]]
          exact (List.filter_sublist rows).cons₂ header
  · intro header rows hfile hne
    subst hfile
    by_cases hab : rows.any List.isEmpty
    · simp [clean, hab]
    · have hh : header.isEmpty = false := by
        rw [Bool.eq_false_iff]
        intro hc
        exact hne (List.isEmpty_iff.mp hc)
      simp [clean, hab, hh]

theorem claim_C9_witness :
    (clean 0 [historyHeader, ["zz"]]).head? = some historyHeader :=
  (claim_C9 0 [historyHeader, ["zz"]]).2 historyHeader [["zz"]] rfl (by decide)

/-- C10.  Every history row produced within a single run carries the one
timestamp string computed once at the start of the run as the collection
time plus 8 hours; rows of the same run never differ in timestamp. -/
theorem claim_C10 (now : Int) (responses : List (Option ApiResponse)) :
    ∀ r ∈ runRecords now responses, r.head? = some (fmtTs (now + 8 * 3600)) :=
  fun _ hr => runRecords_head hr

theorem claim_C10_witness :
    (["0001-01-01 08:00:00", "423297", "1", "0", "0", "0", "0"]
        : List String).head?
      = some (fmtTs ((0 : Int) + 8 * 3600)) :=
  claim_C10 0 [some ⟨some 0, none, [⟨none, none, none, none, none⟩]⟩]
    ["0001-01-01 08:00:00", "423297", "1", "0", "0", "0", "0"] (by decide)

